import Mathlib

/-!
Verification development for `sub2clash.py`: a shallow embedding of the
subscription-to-Clash conversion pipeline (forgiving Base64 recoder, entry
splitter, the four scheme parsers, the aggregator, the document assembler and
the single-run driver), together with theorems settling the specification
claims about it.

Python strings are modelled as Lean `String`s; Python `bytes` as `List Nat`
(each element < 256); operations that can raise an exception return `Option`
or `Except Unit`.
-/

set_option maxRecDepth 20000

namespace Sub2Clash

/-! ### Python-style character/string primitives -/

/-- Whitespace as matched by `re.sub(r"\s+", ...)` / `str.strip()`
(ASCII subset: space, tab, newline, carriage return, vertical tab, form feed). -/
def isPyWS (c : Char) : Bool :=
  c == ' ' || c == '\t' || c == '\n' || c == '\r' || c == Char.ofNat 11 || c == Char.ofNat 12

def isDigitCh (c : Char) : Bool := '0' ≤ c && c ≤ '9'

/-- `str.strip()` on a char list. -/
def stripChars (l : List Char) : List Char :=
  ((l.dropWhile (fun c => isPyWS c)).reverse.dropWhile (fun c => isPyWS c)).reverse

/-- `s.strip()`. -/
def pyStrip (s : String) : String := ⟨stripChars s.data⟩

/-- `s.startswith(p)`. -/
def pyStartsWith (s p : String) : Bool := s.data.take p.data.length == p.data

/-- Split at the first occurrence of `c`: chars before it, and (when found)
the remainder after it. -/
def breakAt (c : Char) : List Char → List Char × Option (List Char)
  | [] => ([], none)
  | x :: xs =>
    if x = c then ([], some xs)
    else
      let r := breakAt c xs
      (x :: r.1, r.2)

/-- `s.split(sep, 1)[0]` for a single-char separator. -/
def pySplitFirstLeft (s : String) (c : Char) : String := ⟨(breakAt c s.data).1⟩

/-- The part of `s` after the first occurrence of `c` (`s.split(sep, 1)[1]`),
`none` when `c` is absent. -/
def pyAfterFirst (s : String) (c : Char) : Option String :=
  match breakAt c s.data with
  | (_, none) => none
  | (_, some r) => some ⟨r⟩

/-- `left, right = s.split(sep, 1)`; `none` models the `ValueError` raised when
`sep` is absent and fewer values unpack. -/
def pySplitOnce (s : String) (c : Char) : Option (String × String) :=
  match breakAt c s.data with
  | (_, none) => none
  | (l, some r) => some (⟨l⟩, ⟨r⟩)

/-- `c in s` for a single character. -/
def pyContains (s : String) (c : Char) : Bool := (breakAt c s.data).2.isSome

/-- `left, right = s.rsplit(sep, 1)`; `none` when `sep` is absent. -/
def pyRSplitOnce (s : String) (c : Char) : Option (String × String) :=
  match breakAt c s.data.reverse with
  | (_, none) => none
  | (l, some r) => some (⟨r.reverse⟩, ⟨l.reverse⟩)

def splitAllAux (c : Char) : List Char → List Char → List (List Char)
  | [], acc => [acc.reverse]
  | x :: xs, acc =>
    if x = c then acc.reverse :: splitAllAux c xs []
    else splitAllAux c xs (x :: acc)

/-- `s.split(sep)` (no limit) for a single-char separator. -/
def pySplitAll (s : String) (c : Char) : List String :=
  (splitAllAux c s.data []).map (fun l => ⟨l⟩)

def splitMaxAux (c : Char) : List Char → Nat → List Char → List (List Char)
  | [], _, acc => [acc.reverse]
  | x :: xs, fuel, acc =>
    if fuel = 0 then [acc.reverse ++ x :: xs]
    else if x = c then acc.reverse :: splitMaxAux c xs (fuel - 1) []
    else splitMaxAux c xs fuel (x :: acc)

/-- `s.split(sep, maxsplit)` for a single-char separator. -/
def pySplitMax (s : String) (c : Char) (maxsplit : Nat) : List String :=
  (splitMaxAux c s.data maxsplit []).map (fun l => ⟨l⟩)

/-- `s.partition(sep)` for a single-char separator, keeping only the before /
after parts (the middle is never consulted by the source). -/
def pyPartition (s : String) (c : Char) : String × String :=
  match breakAt c s.data with
  | (l, none) => (⟨l⟩, "")
  | (l, some r) => (⟨l⟩, ⟨r⟩)

/-- `s[:80]`, used by the aggregator's warning previews. -/
def pyTake80 (s : String) : String := ⟨s.data.take 80⟩

/-- `re.sub(r"[^0-9]", "", s)`. -/
def stripNonDigits (s : String) : String := ⟨s.data.filter (fun c => isDigitCh c)⟩

def digitsToNat : List Char → Nat → Nat
  | [], acc => acc
  | c :: cs, acc => digitsToNat cs (acc * 10 + (c.toNat - 48))

/-- Python `int(str)`: optional surrounding whitespace, optional sign, a
nonempty run of decimal digits (underscore digit grouping is not modelled);
`none` models the `ValueError` on anything else. -/
def pyInt (s : String) : Option Int :=
  let t := stripChars s.data
  let signDigits : Int × List Char :=
    match t with
    | '+' :: rest => (1, rest)
    | '-' :: rest => (-1, rest)
    | rest => (1, rest)
  if signDigits.2 = [] ∨ ¬ signDigits.2.all (fun c => isDigitCh c) then none
  else some (signDigits.1 * (digitsToNat signDigits.2 0 : Int))

/-- `line.count("://")` (non-overlapping, left to right). -/
def countSchemeSeps : List Char → Nat
  | [] => 0
  | ':' :: '/' :: '/' :: rest => countSchemeSeps rest + 1
  | _ :: rest => countSchemeSeps rest

def splitLinesAux : List Char → List Char → List (List Char)
  | [], acc => [acc.reverse]
  | '\r' :: '\n' :: rest, acc => acc.reverse :: splitLinesAux rest []
  | '\n' :: rest, acc => acc.reverse :: splitLinesAux rest []
  | c :: rest, acc => splitLinesAux rest (c :: acc)

/-- `re.split(r"\r?\n", text)`. -/
def pySplitLines (s : String) : List String :=
  (splitLinesAux s.data []).map (fun l => ⟨l⟩)

def wsTokensAux : List Char → List Char → List (List Char)
  | [], acc => if acc = [] then [] else [acc.reverse]
  | c :: rest, acc =>
    if isPyWS c then
      if acc = [] then wsTokensAux rest [] else acc.reverse :: wsTokensAux rest []
    else wsTokensAux rest (c :: acc)

/-- `[p for p in re.split(r"\s+", line) if p]`: the maximal whitespace-free
tokens of `line`. -/
def pyWSTokens (s : String) : List String :=
  (wsTokensAux s.data []).map (fun l => ⟨l⟩)

/-- ASCII `str.lower()`. -/
def asciiLower (s : String) : String :=
  ⟨s.data.map (fun c => if 'A' ≤ c ∧ c ≤ 'Z' then Char.ofNat (c.toNat + 32) else c)⟩

/-- `s.strip("/")`, used for grpc service names. -/
def pyStripSlashes (s : String) : String :=
  ⟨((s.data.dropWhile (fun c => c = '/')).reverse.dropWhile (fun c => c = '/')).reverse⟩

/-! ### Base64 (`base64.b64decode` / `base64.urlsafe_b64decode`, validate=False)

Bytes are `Nat`s below 256; sextets are `Nat`s below 64.  With
`validate=False`, CPython discards characters outside the alphabet (and `=`)
before decoding and raises `binascii.Error` when the remaining data cannot
form whole quads; decoding failure is modelled as `none`. -/

/-- The standard-alphabet value of a character, `none` for non-alphabet. -/
def b64Index (c : Char) : Option Nat :=
  if 'A' ≤ c ∧ c ≤ 'Z' then some (c.toNat - 65)
  else if 'a' ≤ c ∧ c ≤ 'z' then some (c.toNat - 71)
  else if '0' ≤ c ∧ c ≤ '9' then some (c.toNat + 4)
  else if c = '+' then some 62
  else if c = '/' then some 63
  else none

/-- The standard-alphabet character for a sextet. -/
def b64Chr (n : Nat) : Char :=
  if n < 26 then Char.ofNat (n + 65)
  else if n < 52 then Char.ofNat (n + 71)
  else if n < 62 then Char.ofNat (n - 4)
  else if n = 62 then '+' else '/'

/-- Decode whole quads of already-filtered characters (alphabet or `=`). -/
def b64Quads : List Char → Option (List Nat)
  | [] => some []
  | c1 :: c2 :: c3 :: c4 :: rest =>
    match b64Index c1, b64Index c2 with
    | some a, some b =>
      if c3 = '=' then
        if c4 = '=' ∧ rest = [] then some [a * 4 + b / 16] else none
      else
        match b64Index c3 with
        | some c =>
          if c4 = '=' then
            if rest = [] then some [a * 4 + b / 16, b % 16 * 16 + c / 4] else none
          else
            match b64Index c4, b64Quads rest with
            | some d, some tail =>
              some ((a * 4 + b / 16) :: (b % 16 * 16 + c / 4) :: (c % 4 * 64 + d) :: tail)
            | _, _ => none
        | none => none
    | _, _ => none
  | _ => none

/-- `base64.b64decode(bytes(s), validate=False)`: discard characters outside
the alphabet/padding, then decode; `none` models `binascii.Error`. -/
def b64DecodeLoose (cs : List Char) : Option (List Nat) :=
  b64Quads (cs.filter (fun c => (b64Index c).isSome || c = '='))

/-- The `-`→`+`, `_`→`/` translation performed by `urlsafe_b64decode`. -/
def urlsafeTranslate (c : Char) : Char :=
  if c = '-' then '+' else if c = '_' then '/' else c

/-- `base64.b64encode` (standard alphabet, with padding). -/
def b64Encode : List Nat → List Char
  | [] => []
  | [a] => [b64Chr (a / 4), b64Chr (a % 4 * 16), '=', '=']
  | [a, b] => [b64Chr (a / 4), b64Chr (a % 4 * 16 + b / 16), b64Chr (b % 16 * 4), '=']
  | a :: b :: c :: rest =>
    b64Chr (a / 4) :: b64Chr (a % 4 * 16 + b / 16) :: b64Chr (b % 16 * 4 + c / 64) ::
      b64Chr (c % 64) :: b64Encode rest

/-! ### UTF-8 (`bytes.decode("utf-8", errors=...)` and `str.encode("utf-8")`)

The decoder validates continuation ranges (rejecting overlong forms and
surrogates, as CPython does) and, on an invalid sequence, emits `repl` and
skips the offending lead byte. `repl = []` models `errors="ignore"`,
`repl = [U+FFFD]` models `errors="replace"`. -/

/-- Classification of a byte in lead position: an ASCII character, the start
of a multi-byte sequence (initial accumulator, number of continuation bytes
still expected, allowed range for the next byte), or invalid. The ranges for
the first continuation byte exclude overlong forms and surrogates, as CPython
does. -/
inductive Utf8Lead where
  | ascii (c : Char)
  | start (v k lo hi : Nat)
  | bad
deriving DecidableEq

def classifyLead (b : Nat) : Utf8Lead :=
  if b < 128 then .ascii (Char.ofNat b)
  else if 194 ≤ b ∧ b ≤ 223 then .start (b - 192) 1 128 191
  else if 224 ≤ b ∧ b ≤ 239 then
    .start (b - 224) 2 (if b = 224 then 160 else 128) (if b = 237 then 159 else 191)
  else if 240 ≤ b ∧ b ≤ 244 then
    .start (b - 240) 3 (if b = 240 then 144 else 128) (if b = 244 then 143 else 191)
  else .bad

/-- Incremental UTF-8 decoder. The state carries the accumulator and the
expected continuation bytes of a partially-read sequence. On an invalid
sequence it emits `repl` and re-examines the offending byte as a fresh lead
byte, matching CPython's maximal-subpart error handling. `repl = []` models
`errors="ignore"`, `repl = [U+FFFD]` models `errors="replace"`. -/
def utf8DFA (repl : List Char) : Option (Nat × Nat × Nat × Nat) → List Nat → List Char
  | none, [] => []
  | some _, [] => repl
  | none, b :: rest =>
    match classifyLead b with
    | .ascii c => c :: utf8DFA repl none rest
    | .start v k lo hi => utf8DFA repl (some (v, k, lo, hi)) rest
    | .bad => repl ++ utf8DFA repl none rest
  | some (v, k, lo, hi), b :: rest =>
    if lo ≤ b ∧ b ≤ hi then
      if k = 1 then Char.ofNat (v * 64 + (b - 128)) :: utf8DFA repl none rest
      else utf8DFA repl (some (v * 64 + (b - 128), k - 1, 128, 191)) rest
    else
      repl ++
        match classifyLead b with
        | .ascii c => c :: utf8DFA repl none rest
        | .start v' k' lo' hi' => utf8DFA repl (some (v', k', lo', hi')) rest
        | .bad => repl ++ utf8DFA repl none rest

/-- `bytes.decode("utf-8", errors="ignore")`. -/
def utf8DecodeIgnore (bs : List Nat) : String := ⟨utf8DFA [] none bs⟩

/-- `bytes.decode("utf-8", errors="replace")` (used inside `urllib.parse.unquote`). -/
def utf8DecodeReplace (bs : List Nat) : String := ⟨utf8DFA [Char.ofNat 0xFFFD] none bs⟩

/-- `str.encode("utf-8")` for one code point. -/
def utf8EncodeChar (n : Nat) : List Nat :=
  if n < 128 then [n]
  else if n < 2048 then [192 + n / 64, 128 + n % 64]
  else if n < 65536 then [224 + n / 4096, 128 + n / 64 % 64, 128 + n % 64]
  else [240 + n / 262144, 128 + n / 4096 % 64, 128 + n / 64 % 64, 128 + n % 64]

/-- `str.encode("utf-8")`. -/
def utf8Encode (s : String) : List Nat :=
  (s.data.map (fun c => utf8EncodeChar c.toNat)).flatten

/-! ### The forgiving Base64 recoder (`b64decode_to_text`) -/

/-- The recoder's normalization: strip whitespace, then append `=` until the
length is a multiple of four (`padding = (-len) % 4` in the source). -/
def recoderPadded (data : String) : List Char :=
  let stripped := data.data.filter (fun c => ¬ isPyWS c)
  stripped ++ List.replicate ((4 - stripped.length % 4) % 4) '='

/-- `b64decode_to_text(data)`: strip whitespace, complete the padding to a
multiple of four, try URL-safe decoding and fall back to standard decoding.
`none` models the undocumented case where both decoders raise and the
exception propagates to the caller. -/
def b64decode_to_text (data : String) : Option String :=
  match b64DecodeLoose ((recoderPadded data).map urlsafeTranslate) with
  | some bs => some (utf8DecodeIgnore bs)
  | none =>
    match b64DecodeLoose (recoderPadded data) with
    | some bs => some (utf8DecodeIgnore bs)
    | none => none

/-! ### Percent-decoding (`urllib.parse.unquote` / `unquote_plus`)

Maximal runs of consecutive `%XX` (valid hex) groups are decoded as one byte
string and UTF-8-decoded with `errors="replace"`; a `%` not followed by two
hex digits stays literal. -/

def hexDigit (c : Char) : Option Nat :=
  if '0' ≤ c ∧ c ≤ '9' then some (c.toNat - 48)
  else if 'a' ≤ c ∧ c ≤ 'f' then some (c.toNat - 87)
  else if 'A' ≤ c ∧ c ≤ 'F' then some (c.toNat - 55)
  else none

def unquoteAux : List Char → List Nat → List Char
  | [], buf => (utf8DecodeReplace buf).data
  | '%' :: c1 :: c2 :: rest, buf =>
    match hexDigit c1, hexDigit c2 with
    | some h1, some h2 => unquoteAux rest (buf ++ [h1 * 16 + h2])
    | _, _ => (utf8DecodeReplace buf).data ++ '%' :: unquoteAux (c1 :: c2 :: rest) []
  | c :: rest, buf => (utf8DecodeReplace buf).data ++ c :: unquoteAux rest []

/-- `percent_decode(s)` from the source (the `try` there only guards the
`urllib` import, so it is `urllib.parse.unquote`). -/
def percent_decode (s : String) : String := ⟨unquoteAux s.data []⟩

/-- `urllib.parse.unquote_plus`: `+` becomes a space, then percent-decode. -/
def unquote_plus (s : String) : String :=
  ⟨unquoteAux (s.data.map (fun c => if c = '+' then ' ' else c)) []⟩

/-! ### Query extraction (`urllib.parse.urlparse(url).query` and `parse_qs`) -/

def isSchemeChar (c : Char) : Bool :=
  c.isAlpha || isDigitCh c || c == '+' || c == '-' || c == '.'

/-- `urlsplit`'s scheme removal: when the text before the first `:` is a valid
scheme, return what follows the colon, else the whole string. -/
def splitSchemeRest (s : String) : String :=
  match breakAt ':' s.data with
  | (before, some rest) =>
    if before ≠ [] ∧ (before.headD ' ').isAlpha ∧ before.all isSchemeChar then ⟨rest⟩ else s
  | (_, none) => s

/-- `urllib.parse.urlparse(url).query`. `.error ()` models the
`ValueError("Invalid IPv6 URL")` raised for a bracket-unbalanced authority. -/
def pyUrlsplitQuery (url : String) : Except Unit String :=
  let noFrag := pySplitFirstLeft url '#'
  let rest := splitSchemeRest noFrag
  if pyStartsWith rest "//" then
    let after : List Char := rest.data.drop 2
    let netloc := after.takeWhile (fun c => ¬ (c = '/' ∨ c = '?' ∨ c = '#'))
    let tail : String := ⟨after.dropWhile (fun c => ¬ (c = '/' ∨ c = '?' ∨ c = '#'))⟩
    if (netloc.contains '[' ∧ ¬ netloc.contains ']') ∨
        (netloc.contains ']' ∧ ¬ netloc.contains '[') then .error ()
    else .ok ((pyAfterFirst tail '?').getD "")
  else .ok ((pyAfterFirst rest '?').getD "")

/-- `urllib.parse.parse_qsl(q)` with the default options: split on `&`, skip
empty chunks, skip chunks without `=` or with an empty value, percent-decode
(plus-as-space) names and values. -/
def parse_qsl (q : String) : List (String × String) :=
  (pySplitAll q '&').filterMap (fun p =>
    if p = "" then none
    else
      match pySplitOnce p '=' with
      | none => none
      | some (k, v) => if v = "" then none else some (unquote_plus k, unquote_plus v))

/-- `parse_query(url)` from the source: the query's first value per key, in
first-occurrence order; propagates `urlparse`'s `ValueError`. -/
def parse_query (url : String) : Except Unit (List (String × String)) :=
  match pyUrlsplitQuery url with
  | .error e => .error e
  | .ok q => if q = "" then .ok [] else .ok (parse_qsl q)

/-- `query.get(k)`: the value of the first pair named `k`. -/
def qget (pairs : List (String × String)) (k : String) : Option String :=
  (pairs.find? (fun kv => kv.1 == k)).map (fun kv => kv.2)

/-- Python truthiness of an optional string: `None` and `""` are falsy. -/
def truthyOpt (a : Option String) : Option String :=
  match a with
  | some s => if s = "" then none else some s
  | none => none

/-- `a or b` for an optional string `a` and a string default `b`. -/
def orStr (a : Option String) (b : String) : String := (truthyOpt a).getD b

/-! ### JSON (`json.loads`), as needed by the vmess parser

Numbers are modelled as integers only (float/exponent literals fail the
parse); a lone UTF-16 surrogate escape also fails (a Lean `Char` cannot hold
it). Neither shape occurs in the vmess payloads the claims are about. -/

inductive JVal where
  | null
  | bool (b : Bool)
  | num (n : Int)
  | str (s : String)
  | arr (xs : List JVal)
  | obj (kvs : List (String × JVal))

def jsonWS (cs : List Char) : List Char :=
  cs.dropWhile (fun c => c = ' ' ∨ c = '\t' ∨ c = '\n' ∨ c = '\r')

def hex4 (a b c d : Char) : Option Nat := do
  let x1 ← hexDigit a
  let x2 ← hexDigit b
  let x3 ← hexDigit c
  let x4 ← hexDigit d
  pure (x1 * 4096 + x2 * 256 + x3 * 16 + x4)

/-- JSON string body after the opening quote: content and remainder. -/
def parseJStrAux : List Char → Option (List Char × List Char)
  | [] => none
  | '"' :: rest => some ([], rest)
  | '\\' :: 'u' :: h1 :: h2 :: h3 :: h4 :: rest =>
    match hex4 h1 h2 h3 h4 with
    | none => none
    | some v =>
      if v < 0xD800 ∨ 0xE000 ≤ v then
        (parseJStrAux rest).map (fun r => (Char.ofNat v :: r.1, r.2))
      else if v ≤ 0xDBFF then
        match rest with
        | '\\' :: 'u' :: g1 :: g2 :: g3 :: g4 :: rest2 =>
          match hex4 g1 g2 g3 g4 with
          | some w =>
            if 0xDC00 ≤ w ∧ w ≤ 0xDFFF then
              (parseJStrAux rest2).map (fun r =>
                (Char.ofNat (0x10000 + (v - 0xD800) * 1024 + (w - 0xDC00)) :: r.1, r.2))
            else none
          | none => none
        | _ => none
      else none
  | '\\' :: e :: rest =>
    let push (c : Char) := (parseJStrAux rest).map (fun r => (c :: r.1, r.2))
    if e = '"' then push '"'
    else if e = '\\' then push '\\'
    else if e = '/' then push '/'
    else if e = 'b' then push (Char.ofNat 8)
    else if e = 'f' then push (Char.ofNat 12)
    else if e = 'n' then push '\n'
    else if e = 'r' then push '\r'
    else if e = 't' then push '\t'
    else none
  | c :: rest =>
    if c.toNat < 32 then none
    else (parseJStrAux rest).map (fun r => (c :: r.1, r.2))

def parseJNat (cs : List Char) : Option (Nat × List Char) :=
  let digits := cs.takeWhile (fun c => isDigitCh c)
  let rest := cs.dropWhile (fun c => isDigitCh c)
  if digits = [] then none
  else if digits.headD ' ' = '0' ∧ 1 < digits.length then none
  else some (digitsToNat digits 0, rest)

def parseJNumber (cs : List Char) : Option (JVal × List Char) :=
  match cs with
  | '-' :: rest => (parseJNat rest).map (fun r => (.num (-(r.1 : Int)), r.2))
  | _ => (parseJNat cs).map (fun r => (.num (r.1 : Int), r.2))

mutual

def parseJValue : Nat → List Char → Option (JVal × List Char)
  | 0, _ => none
  | fuel + 1, cs =>
    match jsonWS cs with
    | [] => none
    | '{' :: rest =>
      (match jsonWS rest with
       | '}' :: rest2 => some (.obj [], rest2)
       | _ => parseJMembers fuel rest [])
    | '[' :: rest =>
      (match jsonWS rest with
       | ']' :: rest2 => some (.arr [], rest2)
       | _ => parseJElems fuel rest [])
    | '"' :: rest => (parseJStrAux rest).map (fun r => (.str ⟨r.1⟩, r.2))
    | 't' :: 'r' :: 'u' :: 'e' :: rest => some (.bool true, rest)
    | 'f' :: 'a' :: 'l' :: 's' :: 'e' :: rest => some (.bool false, rest)
    | 'n' :: 'u' :: 'l' :: 'l' :: rest => some (.null, rest)
    | c :: rest => parseJNumber (c :: rest)

def parseJMembers : Nat → List Char → List (String × JVal) → Option (JVal × List Char)
  | 0, _, _ => none
  | fuel + 1, cs, acc =>
    match jsonWS cs with
    | '"' :: rest =>
      (match parseJStrAux rest with
       | none => none
       | some (key, r1) =>
         match jsonWS r1 with
         | ':' :: r2 =>
           (match parseJValue fuel r2 with
            | none => none
            | some (v, r3) =>
              match jsonWS r3 with
              | ',' :: r4 => parseJMembers fuel r4 (acc ++ [(⟨key⟩, v)])
              | '}' :: r4 => some (.obj (acc ++ [(⟨key⟩, v)]), r4)
              | _ => none)
         | _ => none)
    | _ => none

def parseJElems : Nat → List Char → List JVal → Option (JVal × List Char)
  | 0, _, _ => none
  | fuel + 1, cs, acc =>
    match parseJValue fuel cs with
    | none => none
    | some (v, r1) =>
      match jsonWS r1 with
      | ',' :: r2 => parseJElems fuel r2 (acc ++ [v])
      | ']' :: r2 => some (.arr (acc ++ [v]), r2)
      | _ => none

end

/-- `json.loads(s)`; `none` models `json.JSONDecodeError`. -/
def jsonLoads (s : String) : Option JVal :=
  match parseJValue (s.data.length + 1) s.data with
  | some (v, rest) => if jsonWS rest = [] then some v else none
  | none => none

/-- `data.get(k)` on a decoded JSON object (duplicate keys: last wins, as in a
Python dict built by `json.loads`). -/
def jGet (kvs : List (String × JVal)) (k : String) : Option JVal :=
  (kvs.reverse.find? (fun kv => kv.1 == k)).map (fun kv => kv.2)

/-- Python truthiness of `data.get(k)` (missing key = `None` = falsy). -/
def jTruthy : JVal → Bool
  | .null => false
  | .bool b => b
  | .num n => n ≠ 0
  | .str s => s ≠ ""
  | .arr xs => !xs.isEmpty
  | .obj kvs => !kvs.isEmpty

def natToDigitsRev : Nat → Nat → List Char
  | 0, _ => []
  | fuel + 1, n =>
    if n < 10 then [Char.ofNat (48 + n)]
    else natToDigitsRev fuel (n / 10) ++ [Char.ofNat (48 + n % 10)]

def natToStr (n : Nat) : String := ⟨natToDigitsRev (n + 1) n⟩

def intToStr (i : Int) : String :=
  if i < 0 then "-" ++ natToStr i.natAbs else natToStr i.natAbs

/-- Python `str()` of a JSON value, as used on scalar fields (`str()` of
containers is a repr the source never stores, left as a placeholder). -/
def jToStr : JVal → String
  | .str s => s
  | .num n => intToStr n
  | .bool true => "True"
  | .bool false => "False"
  | .null => "None"
  | .arr _ => "[...]"
  | .obj _ => "\x7b...\x7d"

/-- `a or b` on JSON values (`a` may be a missing key, i.e. `None`). -/
def jOr (a : Option JVal) (b : JVal) : JVal :=
  match a with
  | some v => if jTruthy v then v else b
  | none => b

/-- `data.get(k1) or data.get(k2) or None`. -/
def jOr2 (a b : Option JVal) : Option JVal :=
  match a with
  | some v =>
    if jTruthy v then some v
    else (match b with
          | some w => if jTruthy w then some w else none
          | none => none)
  | none =>
    match b with
    | some w => if jTruthy w then some w else none
    | none => none

/-! ### The proxy descriptor

One record with optional fields stands in for the ad-hoc Python dicts; the
nested `ws-opts` / `grpc-opts` mappings are flattened into the `ws*` /
`grpc*` fields, key presence being `Option.isSome`. -/

structure Proxy where
  name : String
  type : String
  server : String := ""
  port : Int := 0
  cipher : Option String := none
  password : Option String := none
  uuid : Option String := none
  alterId : Option Int := none
  protocol : Option String := none
  obfs : Option String := none
  plugin : Option String := none
  obfsParam : Option String := none
  protocolParam : Option String := none
  udp : Bool := false
  tls : Bool := false
  servername : Option String := none
  sni : Option String := none
  skipCertVerify : Bool := false
  alpn : Option (List String) := none
  network : Option String := none
  wsPath : Option String := none
  wsHostHeader : Option String := none
  grpcServiceName : Option String := none
deriving DecidableEq

deriving instance DecidableEq for Except

/-! ### The four scheme parsers

Each returns `.ok (some d)` on success, `.ok none` on a recovered structural
failure, and `.error ()` when an exception escapes the parser (the aggregator
catches those). -/

/-- `parse_name_from_fragment(url)`. -/
def parse_name_from_fragment (url : String) : Option String :=
  if pyContains url '#' then
    let d := percent_decode ((pyAfterFirst url '#').getD "")
    if d = "" then none else some d
  else none

/-- `parse_ss(url)`. `parse_query` is called outside the `try`, so its
`ValueError` escapes; everything inside the `try` collapses to `none`. -/
def parse_ss (url : String) : Except Unit (Option Proxy) :=
  if ¬ pyStartsWith url "ss://" then .error () else
  let body : String := ⟨url.data.drop 5⟩
  let name := (parse_name_from_fragment url).getD "SS"
  let body_clean := pySplitFirstLeft body '#'
  match parse_query url with
  | .error e => .error e
  | .ok query =>
    let candidate := body_clean
    if pyStartsWith candidate "-" then .ok none else
    let parsed : Option (String × String × String × Int) :=
      match (if pyContains candidate '@' then some candidate
             else b64decode_to_text (pySplitFirstLeft candidate '?')) with
      | none => none
      | some candidate2 =>
        match pySplitOnce candidate2 '@' with
        | none => none
        | some (userinfo, server) =>
          match pySplitOnce userinfo ':' with
          | none => none
          | some (method, password) =>
            match pyRSplitOnce server ':' with
            | none => none
            | some (host, port_str) =>
              match pyInt (stripNonDigits port_str) with
              | none => none
              | some port => some (method, password, host, port)
    match parsed with
    | none => .ok none
    | some (method, password, host, port) =>
      .ok (some { name := name, type := "ss", server := host, port := port,
                  cipher := some method, password := some password,
                  plugin := truthyOpt (qget query "plugin") })

def jTruthyOpt (o : Option JVal) : Bool :=
  match o with
  | some v => jTruthy v
  | none => false

/-- `parse_vmess(url)`. Only `json.loads(b64decode_to_text(body))` is inside
the `try`; the later `int(...)` and `.lower()` calls can raise (`.error ()`). -/
def parse_vmess (url : String) : Except Unit (Option Proxy) :=
  if ¬ pyStartsWith url "vmess://" then .error () else
  let body : String := ⟨url.data.drop 8⟩
  match (match b64decode_to_text body with
         | none => none
         | some t => jsonLoads t) with
  | none => .ok none
  | some (JVal.obj kvs) =>
    let name := jToStr (jOr (jGet kvs "ps") (.str "VMess"))
    let serverV := jGet kvs "add"
    match pyInt (let s := jToStr (jOr (jGet kvs "port") (.num 0)); if s = "" then "0" else s) with
    | none => .error ()
    | some port =>
    let uuidV := jGet kvs "id"
    match pyInt (let s := jToStr (jOr (jGet kvs "aid") (.num 0)); if s = "" then "0" else s) with
    | none => .error ()
    | some aid =>
    let netV := jOr (jGet kvs "net") (.str "tcp")
    match jOr (jGet kvs "tls") (.str "") with
    | JVal.str tlsS =>
      let tls_flag : Bool := asciiLower tlsS == "tls" || asciiLower tlsS == "reality"
      let sniV := jOr2 (jGet kvs "sni") (jGet kvs "peer")
      let hostV := jOr2 (jGet kvs "host") (jGet kvs "sni")
      let pathV := jOr (jGet kvs "path") (.str "/")
      let alpnV := jGet kvs "alpn"
      if ¬ jTruthyOpt serverV ∨ port = 0 ∨ ¬ jTruthyOpt uuidV then .ok none
      else
        let base : Proxy :=
          { name := name, type := "vmess", server := jToStr ((serverV).getD .null),
            port := port, uuid := some (jToStr ((uuidV).getD .null)),
            alterId := some aid, cipher := some "auto",
            tls := tls_flag, servername := sniV.map jToStr,
            alpn := match alpnV with
                    | some v =>
                      if jTruthy v then
                        match v with
                        | .str s => some [s]
                        | .arr xs => some (xs.map jToStr)
                        | _ => none
                      else none
                    | none => none }
        match netV with
        | JVal.str netS =>
          let network := asciiLower netS
          if network = "ws" then
            .ok (some ({ base with
                         network := some "ws",
                         wsPath := some (jToStr (jOr (some pathV) (.str "/"))),
                         wsHostHeader := hostV.map jToStr }))
          else if network = "grpc" then
            if jTruthy pathV then
              match pathV with
              | .str pathS =>
                .ok (some ({ base with
                             network := some "grpc",
                             grpcServiceName := some (pyStripSlashes pathS) }))
              | _ => .error ()
            else .ok (some { base with network := some "grpc" })
          else .ok (some base)
        | _ => .error ()
    | _ => .error ()
  | some _ => .error ()

/-- `parse_trojan(url)`. As with `parse_ss`, only `parse_query` can raise. -/
def parse_trojan (url : String) : Except Unit (Option Proxy) :=
  if ¬ pyStartsWith url "trojan://" then .error () else
  let name := (parse_name_from_fragment url).getD "Trojan"
  match parse_query url with
  | .error e => .error e
  | .ok query =>
    let body := pySplitFirstLeft (⟨url.data.drop 9⟩ : String) '#'
    let parsed : Option (String × String × Int) :=
      match pySplitOnce body '@' with
      | none => none
      | some (password, server_part) =>
        match pyRSplitOnce server_part ':' with
        | none => none
        | some (host, port_str) =>
          match pyInt (stripNonDigits port_str) with
          | none => none
          | some port => some (password, host, port)
    match parsed with
    | none => .ok none
    | some (password, host, port) =>
      let type_q := asciiLower (orStr (qget query "type") (orStr (qget query "transport") ""))
      let base : Proxy :=
        { name := name, type := "trojan", server := host, port := port,
          password := some (percent_decode password), udp := true,
          sni := some (orStr (qget query "sni") (orStr (qget query "peer") host)),
          skipCertVerify := false,
          alpn := (truthyOpt (qget query "alpn")).map (fun a => pySplitAll a ',') }
      if type_q = "ws" then
        .ok (some ({ base with
                     network := some "ws",
                     wsPath := truthyOpt (qget query "path"),
                     wsHostHeader := truthyOpt ((truthyOpt (qget query "host")).orElse
                       (fun _ => qget query "sni")) }))
      else if type_q = "grpc" then
        if (truthyOpt ((truthyOpt (qget query "serviceName")).orElse
              (fun _ => qget query "service"))).isSome then
          .ok (some ({ base with
                       network := some "grpc",
                       grpcServiceName := truthyOpt ((truthyOpt (qget query "serviceName")).orElse
                         (fun _ => qget query "service")) }))
        else .ok (some ({ base with network := some "grpc" }))
      else .ok (some base)

/-- The fields the SSR `try` block extracts from the decoded body. -/
structure SsrParts where
  server : String
  port : String
  protocol : String
  method : String
  obfs : String
  password : String
  name : String
  obfsparam : String
  protoparam : String
deriving DecidableEq

/-- The SSR `try` block: `server:port:protocol:method:obfs:base64pass/?params`;
any failure (field unpacking, inner Base64) collapses to `none`. -/
def ssr_fields (decoded : String) : Option SsrParts :=
  let mp := pyPartition decoded '/'
  match pySplitMax mp.1 ':' 5 with
  | [server, port, protocol, method, obfs, pwd_b64] =>
    (match b64decode_to_text pwd_b64 with
     | none => none
     | some password =>
       if pyStartsWith mp.2 "?" then
         let params_qs : String := ⟨mp.2.data.drop 1⟩
         let pairs := (pySplitAll params_qs '&').filterMap
           (fun p => if p = "" then none else some (pyPartition p '='))
         let dget := fun (k : String) =>
           (pairs.reverse.find? (fun kv => kv.1 == k)).map (fun kv => kv.2)
         match (match dget "remarks" with
                | some r => (b64decode_to_text r).map some
                | none => some none) with
         | none => none
         | some remName =>
           let name := match remName with
                       | some s => if s = "" then "SSR" else s
                       | none => "SSR"
           match (match dget "obfsparam" with
                  | some o => b64decode_to_text o
                  | none => some "") with
           | none => none
           | some obfsparam =>
             match (match dget "protoparam" with
                    | some o => b64decode_to_text o
                    | none => some "") with
             | none => none
             | some protoparam =>
               some ⟨server, port, protocol, method, obfs, password, name,
                     obfsparam, protoparam⟩
       else
         some ⟨server, port, protocol, method, obfs, password, "SSR", "", ""⟩)
  | _ => none

/-- `parse_ssr(url, allow_native_ssr)`. Everything that can raise sits inside
a `try`, so the parser never propagates an exception (past the prefix assert). -/
def parse_ssr (url : String) (allow_native_ssr : Bool) : Except Unit (Option Proxy) :=
  if ¬ pyStartsWith url "ssr://" then .error () else
  .ok (match b64decode_to_text ⟨url.data.drop 6⟩ with
  | none => none
  | some decoded =>
    match ssr_fields decoded with
    | none => none
    | some f =>
      if allow_native_ssr then
        match pyInt f.port with
        | none => none
        | some port_i =>
          some { name := f.name, type := "ssr", server := f.server, port := port_i,
                 cipher := some f.method, password := some f.password,
                 protocol := some f.protocol, obfs := some f.obfs, udp := true,
                 obfsParam := if f.obfsparam = "" then none else some f.obfsparam,
                 protocolParam := if f.protoparam = "" then none else some f.protoparam }
      else if f.protocol ≠ "origin" ∨ f.obfs ≠ "plain" then none
      else
        match pyInt f.port with
        | none => none
        | some port_i =>
          some { name := f.name, type := "ss", server := f.server, port := port_i,
                 cipher := some f.method, password := some f.password })

/-! ### Entry splitter, aggregator, assembler, single run -/

/-- `split_lines_keep_schemes(text)`. -/
def split_lines_keep_schemes (text : String) : List String :=
  ((pySplitLines text).map (fun l =>
    let line := pyStrip l
    if line = "" then []
    else if 1 < countSchemeSeps line.data ∧ ¬ pyStartsWith line "ssr://" ∧
        ¬ pyStartsWith line "vmess://" then
      pyWSTokens line
    else [line])).flatten

/-- The aggregator's per-line dispatch on the scheme prefix. -/
def dispatch_parse (allow : Bool) (line : String) : Except Unit (Option Proxy) :=
  if pyStartsWith line "ss://" then parse_ss line
  else if pyStartsWith line "vmess://" then parse_vmess line
  else if pyStartsWith line "trojan://" then parse_trojan line
  else if pyStartsWith line "ssr://" then parse_ssr line allow
  else .ok none

def warnUnrecognized (line : String) : String := "未识别或未支持的节点：" ++ pyTake80 line

/-- The warning for a line whose parser raised (the exception text itself is
not modelled). -/
def warnException (line : String) : String := "解析失败：" ++ pyTake80 line ++ " -> "

/-- `parse_lines_to_proxies(lines, allow_native_ssr)`. -/
def parse_lines_to_proxies : List String → Bool → List Proxy × List String
  | [], _ => ([], [])
  | l :: rest, allow =>
    let line := pyStrip l
    let tailRes := parse_lines_to_proxies rest allow
    if line = "" ∨ pyStartsWith line "//" ∨ pyStartsWith line "#" then tailRes
    else
      match dispatch_parse allow line with
      | .ok (some p) => (p :: tailRes.1, tailRes.2)
      | .ok none => (tailRes.1, warnUnrecognized line :: tailRes.2)
      | .error _ => (tailRes.1, warnException line :: tailRes.2)

structure ProxyGroup where
  name : String
  type : String
  proxies : List String
deriving DecidableEq

structure ClashConfig where
  port : Nat
  socksPort : Nat
  allowLan : Bool
  mode : String
  logLevel : String
  externalController : String
  proxies : List Proxy
  proxyGroups : List ProxyGroup
  rules : List String
deriving DecidableEq

set_option linter.unusedVariables false in
/-- `build_minimal_clash_yaml(proxies, profile_name)`. Every descriptor the
parsers produce carries a `name`, so `p.get("name", f"Proxy-i")` is the
`name` field; `profile_name` is deliberately unused, as in the source. -/
def build_minimal_clash_yaml (proxies : List Proxy) (profile_name : String) : ClashConfig :=
  { port := 7890, socksPort := 7891, allowLan := true, mode := "Rule",
    logLevel := "info", externalController := "127.0.0.1:9090",
    proxies := proxies,
    proxyGroups := [{ name := "Proxy", type := "select",
                      proxies := proxies.map Proxy.name ++ ["DIRECT", "REJECT"] }],
    rules := ["MATCH,Proxy"] }

/-- `run_once(url, output, name, allow_native_ssr)`. The two effects are
passed explicitly: `fetched` is what `fetch_subscription_text` returned
(`none` = it raised), `writeOk` whether `write_yaml_to_file` succeeds.
Returns the exit code and the document written, if any. -/
def run_once (fetched : Option String) (writeOk : Bool) (profile_name : String)
    (allow_native_ssr : Bool) : Nat × Option ClashConfig :=
  match fetched with
  | none => (2, none)
  | some text =>
    let lines := split_lines_keep_schemes text
    let res := parse_lines_to_proxies lines allow_native_ssr
    if res.1 = [] then (3, none)
    else
      let config := build_minimal_clash_yaml res.1 profile_name
      if writeOk then (0, some config) else (4, none)

/-- The descriptor (if any) the aggregator obtains for one input line: the
line is stripped, dispatched on its scheme prefix, and only an exception-free
successful parse yields a descriptor. -/
def parsedDescriptor (allow : Bool) (l : String) : Option Proxy :=
  match dispatch_parse allow (pyStrip l) with
  | .ok (some p) => some p
  | _ => none

/-! ## Theorems settling the claims -/

/-- C8: for every descriptor list, the assembled document contains exactly one
selector group, named "Proxy", of type "select", whose ordered member list is
the descriptors' names in list order followed by "DIRECT" then "REJECT", and
exactly one routing rule, the catch-all entry directing all traffic to that
group. -/
theorem build_doc_single_group_and_rule (proxies : List Proxy) (profile_name : String) :
    (build_minimal_clash_yaml proxies profile_name).proxyGroups =
      [{ name := "Proxy", type := "select",
         proxies := proxies.map Proxy.name ++ ["DIRECT", "REJECT"] }] ∧
    (build_minimal_clash_yaml proxies profile_name).rules = ["MATCH,Proxy"] :=
  ⟨rfl, rfl⟩

/-- C10: for every descriptor list and every profile label, the assembled
document has the fixed scalar settings (proxy port 7890, SOCKS port 7891,
allow-lan true, mode "Rule", log-level "info", external controller
"127.0.0.1:9090"), and the label has no effect on any part of the document. -/
theorem build_doc_fixed_scalars_label_independent (proxies : List Proxy) (l1 l2 : String) :
    (build_minimal_clash_yaml proxies l1).port = 7890 ∧
    (build_minimal_clash_yaml proxies l1).socksPort = 7891 ∧
    (build_minimal_clash_yaml proxies l1).allowLan = true ∧
    (build_minimal_clash_yaml proxies l1).mode = "Rule" ∧
    (build_minimal_clash_yaml proxies l1).logLevel = "info" ∧
    (build_minimal_clash_yaml proxies l1).externalController = "127.0.0.1:9090" ∧
    build_minimal_clash_yaml proxies l1 = build_minimal_clash_yaml proxies l2 :=
  ⟨rfl, rfl, rfl, rfl, rfl, rfl, rfl⟩

/-- C3: a run whose aggregator yields zero descriptors terminates without
writing any output document (code 3); retrieval failure, zero survivors and
write failure terminate the run with pairwise-distinct non-zero codes
(2, 3, 4), none writing a document. -/
theorem run_once_failure_codes :
    (∀ (writeOk : Bool) (nm : String) (allow : Bool),
       run_once none writeOk nm allow = (2, none)) ∧
    (∀ (text : String) (writeOk : Bool) (nm : String) (allow : Bool),
       (parse_lines_to_proxies (split_lines_keep_schemes text) allow).1 = [] →
       run_once (some text) writeOk nm allow = (3, none)) ∧
    (∀ (text : String) (nm : String) (allow : Bool),
       (parse_lines_to_proxies (split_lines_keep_schemes text) allow).1 ≠ [] →
       run_once (some text) false nm allow = (4, none)) ∧
    ((2 : Nat) ≠ 3 ∧ (2 : Nat) ≠ 4 ∧ (3 : Nat) ≠ 4 ∧
      (2 : Nat) ≠ 0 ∧ (3 : Nat) ≠ 0 ∧ (4 : Nat) ≠ 0) := by
  refine ⟨fun _ _ _ => rfl, fun text writeOk nm allow h => ?_, fun text nm allow h => ?_,
    by decide⟩
  · simp [run_once, h]
  · simp [run_once, h]

/-- Witness for C3 at concrete runs: a failed fetch, an input with no valid
node, and a valid input with a failing write. -/
theorem run_once_failure_codes_witness :
    run_once none true "MySubscription" false = (2, none) ∧
    run_once (some "hello") true "MySubscription" false = (3, none) ∧
    run_once (some "ss://m:p@h:80") false "MySubscription" false = (4, none) :=
  ⟨run_once_failure_codes.1 true "MySubscription" false,
   run_once_failure_codes.2.1 "hello" true "MySubscription" false (by decide),
   run_once_failure_codes.2.2.1 "ss://m:p@h:80" "MySubscription" false (by decide)⟩

/-- C2 counterexample: on the single-candidate input `"#c"` (a comment line)
the aggregator produces 0 descriptors and 0 warnings, but N − K = 1 − 0 = 1,
so "exactly N−K warnings" fails as stated. -/
theorem aggregator_comment_line_counterexample :
    ¬ ((parse_lines_to_proxies ["#c"] false).2.length =
        (["#c"] : List String).length -
          ((["#c"] : List String).filter
            (fun l => (parsedDescriptor false l).isSome)).length) := by
  decide

/-- C2 amended: for input sequences without blank or comment lines (after
stripping), the aggregator returns exactly the descriptors of the well-formed
entries in input order, and one warning per remaining entry (so K descriptors
and N−K warnings). -/
theorem aggregator_counts_and_order (lines : List String) (allow : Bool)
    (h : ∀ l ∈ lines,
      ¬ (pyStrip l = "" ∨ pyStartsWith (pyStrip l) "//" = true ∨
          pyStartsWith (pyStrip l) "#" = true)) :
    (parse_lines_to_proxies lines allow).1 = lines.filterMap (parsedDescriptor allow) ∧
    (parse_lines_to_proxies lines allow).1.length +
      (parse_lines_to_proxies lines allow).2.length = lines.length := by
  induction lines with
  | nil => simp [parse_lines_to_proxies]
  | cons l rest ih =>
    have hl := h l (List.mem_cons_self l rest)
    obtain ⟨ihA, ihB⟩ := ih (fun x hx => h x (List.mem_cons_of_mem l hx))
    simp only [parse_lines_to_proxies, List.filterMap_cons]
    rw [if_neg hl]
    rcases hd : dispatch_parse allow (pyStrip l) with e | o
    · simp only [parsedDescriptor, hd, List.length_cons]
      exact ⟨ihA, by omega⟩
    · rcases o with _ | p
      · simp only [parsedDescriptor, hd, List.length_cons]
        exact ⟨ihA, by omega⟩
      · simp only [parsedDescriptor, hd, List.length_cons]
        exact ⟨by rw [ihA], by omega⟩

/-- Witness for C2 (amended) on a two-candidate batch with one well-formed
entry: one descriptor, one warning, order preserved. -/
theorem aggregator_counts_and_order_witness :
    (parse_lines_to_proxies ["ss://m:p@h:80", "bad://x"] false).1 =
      (["ss://m:p@h:80", "bad://x"] : List String).filterMap (parsedDescriptor false) ∧
    (parse_lines_to_proxies ["ss://m:p@h:80", "bad://x"] false).1.length +
      (parse_lines_to_proxies ["ss://m:p@h:80", "bad://x"] false).2.length = 2 :=
  aggregator_counts_and_order ["ss://m:p@h:80", "bad://x"] false (by decide)

/-- C4 counterexample: on input `"a!!!"` both the URL-safe and the standard
decode raise (`!` is discarded, leaving one data character), and the second
`base64.b64decode` call is not guarded, so the exception propagates to the
caller (`none` in the model) — the claim "never raises" fails. -/
theorem recoder_exception_counterexample : b64decode_to_text "a!!!" = none := by decide

/-- C4 amended: the recoder returns a string whenever at least one of the two
alphabet decodings of the whitespace-stripped, repadded input succeeds; only
when both fail does the exception escape to the caller. -/
theorem recoder_total_when_either_decodes (s : String)
    (h : (b64DecodeLoose ((recoderPadded s).map urlsafeTranslate)).isSome ∨
         (b64DecodeLoose (recoderPadded s)).isSome) :
    (b64decode_to_text s).isSome := by
  unfold b64decode_to_text
  rcases h1 : b64DecodeLoose ((recoderPadded s).map urlsafeTranslate) with _ | bs
  · rcases h2 : b64DecodeLoose (recoderPadded s) with _ | bs2
    · simp [h1, h2] at h
    · simp [h1, h2]
  · simp [h1]

/-- Witness for C4 (amended) at `"aGk"` (unpadded Base64 of "hi"). -/
theorem recoder_total_when_either_decodes_witness : (b64decode_to_text "aGk").isSome :=
  recoder_total_when_either_decodes "aGk" (Or.inl (by decide))

/-- C5 counterexample: `parse_ss` calls `parse_query` outside its `try`, and
`urlparse` raises `ValueError("Invalid IPv6 URL")` on the bracket-unbalanced
authority of `"ss://[a"`, so the exception propagates to the parser's caller
— the claim "no such call propagates an exception" fails. -/
theorem parse_ss_exception_counterexample : parse_ss "ss://[a" = .error () := by decide

/-- Helper: when the URL split succeeds, `parse_query` returns a value. -/
theorem parse_query_ok (url : String) (hq : (pyUrlsplitQuery url).isOk = true) :
    ∃ qq, parse_query url = .ok qq := by
  unfold parse_query
  split
  · rename_i e he
    rw [he] at hq
    simp [Except.isOk, Except.toBool] at hq
  · split <;> exact ⟨_, rfl⟩

/-- C5 amended: the ssr parser never propagates an exception; the ss and
trojan parsers propagate only the URL-split `ValueError` (bracket-unbalanced
authority) and return a descriptor or None whenever that call succeeds. -/
theorem parsers_exception_discipline :
    (∀ (url : String) (allow : Bool), pyStartsWith url "ssr://" = true →
       (parse_ssr url allow).isOk = true) ∧
    (∀ url : String, pyStartsWith url "ss://" = true →
       (pyUrlsplitQuery url).isOk = true → (parse_ss url).isOk = true) ∧
    (∀ url : String, pyStartsWith url "trojan://" = true →
       (pyUrlsplitQuery url).isOk = true → (parse_trojan url).isOk = true) := by
  refine ⟨fun url allow h => ?_, fun url h hq => ?_, fun url h hq => ?_⟩
  · simp [parse_ssr, h, Except.isOk, Except.toBool]
  · obtain ⟨qq, hpq⟩ := parse_query_ok url hq
    simp only [parse_ss, h, hpq]
    repeat' split
    all_goals simp_all [Except.isOk, Except.toBool]
  · obtain ⟨qq, hpq⟩ := parse_query_ok url hq
    simp only [parse_trojan, h, hpq]
    repeat' split
    all_goals simp_all [Except.isOk, Except.toBool]

/-- Witness for C5 (amended): the three conjuncts applied at concrete inputs
whose URL split succeeds. -/
theorem parsers_exception_discipline_witness :
    (parse_ssr "ssr://x" true).isOk = true ∧
    (parse_ss "ss://m:p@h:80").isOk = true ∧
    (parse_trojan "trojan://p@h:80").isOk = true :=
  ⟨parsers_exception_discipline.1 "ssr://x" true (by decide),
   parsers_exception_discipline.2.1 "ss://m:p@h:80" (by decide) (by decide),
   parsers_exception_discipline.2.2 "trojan://p@h:80" (by decide) (by decide)⟩

/-- C6 counterexample: `parse_ss` happily produces a descriptor with port 0
(a 4-tuple is truthy even with a zero port), so "an entry whose required
numeric port field … is zero yields None" fails. -/
theorem parse_ss_port_zero_counterexample :
    parse_ss "ss://m:p@h:0" =
      .ok (some { name := "SS", type := "ss", server := "h", port := 0,
                  cipher := some "m", password := some "p" }) := by decide

/-- Helper for C6: the vmess parser alone rejects a zero port
(`if not server or not port or not uuid: return None`). -/
theorem parse_vmess_rejects_zero_port (url : String) (d : Proxy)
    (h : parse_vmess url = .ok (some d)) : d.port ≠ 0 := by
  simp only [parse_vmess] at h
  split at h <;> first | exact Except.noConfusion h | exact Option.noConfusion (Except.ok.inj h) | skip
  split at h <;> first | exact Except.noConfusion h | exact Option.noConfusion (Except.ok.inj h) | skip
  rename_i kvs hkvs
  split at h <;> first | exact Except.noConfusion h | exact Option.noConfusion (Except.ok.inj h) | skip
  rename_i port hport
  split at h <;> first | exact Except.noConfusion h | exact Option.noConfusion (Except.ok.inj h) | skip
  rename_i aid haid
  split at h <;> first | exact Except.noConfusion h | exact Option.noConfusion (Except.ok.inj h) | skip
  rename_i tlsS htls
  split at h <;> first | exact Except.noConfusion h | exact Option.noConfusion (Except.ok.inj h) | skip
  rename_i hguard
  split at h <;> first | exact Except.noConfusion h | exact Option.noConfusion (Except.ok.inj h) | skip
  rename_i netS hnet
  all_goals (repeat' split at h) <;>
    first
      | exact Except.noConfusion h
      | exact Option.noConfusion (Except.ok.inj h)
      | (intro h0; obtain rfl := Option.some.inj (Except.ok.inj h)
         exact hguard (Or.inr (Or.inl h0)))

/-- Helper for C9: every ss descriptor is named by the percent-decoded
fragment, defaulting to "SS". -/
theorem parse_ss_name (url : String) (d : Proxy) (h : parse_ss url = .ok (some d)) :
    d.name = (parse_name_from_fragment url).getD "SS" := by
  simp only [parse_ss] at h
  split at h <;> first | exact Except.noConfusion h | skip
  split at h <;> first | exact Except.noConfusion h | skip
  split at h <;> first | exact Option.noConfusion (Except.ok.inj h) | skip
  split at h <;> first | exact Option.noConfusion (Except.ok.inj h) | skip
  obtain rfl := Option.some.inj (Except.ok.inj h)
  rfl

/-- Helper for C9: every trojan descriptor is named by the percent-decoded
fragment, defaulting to "Trojan". -/
theorem parse_trojan_name (url : String) (d : Proxy) (h : parse_trojan url = .ok (some d)) :
    d.name = (parse_name_from_fragment url).getD "Trojan" := by
  simp only [parse_trojan] at h
  split at h <;> first | exact Except.noConfusion h | skip
  split at h <;> first | exact Except.noConfusion h | skip
  split at h <;> first | exact Option.noConfusion (Except.ok.inj h) | skip
  (repeat' split at h) <;>
    first
      | exact Option.noConfusion (Except.ok.inj h)
      | (obtain rfl := Option.some.inj (Except.ok.inj h); rfl)

/-- Helper for C9: every vmess descriptor is named by the JSON `ps` field,
defaulting to "VMess". -/
theorem parse_vmess_name (url : String) (d : Proxy) (kvs : List (String × JVal))
    (hj : (match b64decode_to_text ⟨url.data.drop 8⟩ with
           | none => none
           | some t => jsonLoads t) = some (JVal.obj kvs))
    (h : parse_vmess url = .ok (some d)) :
    d.name = jToStr (jOr (jGet kvs "ps") (.str "VMess")) := by
  simp only [parse_vmess] at h
  split at h <;> first | exact Except.noConfusion h | skip
  rw [hj] at h
  simp only [] at h
  (repeat' split at h) <;>
    first
      | exact Except.noConfusion h
      | exact Option.noConfusion (Except.ok.inj h)
      | (obtain rfl := Option.some.inj (Except.ok.inj h); rfl)

/-- Helper for C9: every ssr descriptor's name is `ssr_fields`' name field,
i.e. comes from the decoded body, not from the URI fragment. -/
theorem parse_ssr_name (url : String) (allow : Bool) (d : Proxy)
    (h : parse_ssr url allow = .ok (some d)) :
    ∃ decoded f, b64decode_to_text ⟨url.data.drop 6⟩ = some decoded ∧
      ssr_fields decoded = some f ∧ d.name = f.name := by
  simp only [parse_ssr] at h
  split at h
  · exact Except.noConfusion h
  · have h2 := Except.ok.inj h
    split at h2
    · exact Option.noConfusion h2
    · rename_i decoded hdec
      split at h2
      · exact Option.noConfusion h2
      · rename_i f hf
        refine ⟨decoded, f, hdec, hf, ?_⟩
        (repeat' split at h2) <;>
          first
            | exact Option.noConfusion h2
            | (obtain rfl := Option.some.inj h2; rfl)

/-- C1: for every SSR URI whose decoded body parses structurally (six
colon-separated fields, decodable inner Base64 layers, and an integral port),
compatibility mode returns a descriptor iff protocol = "origin" and
obfs = "plain", and that descriptor has type "ss" with cipher, password,
server and port equal to the decoded method, password, server and port; for
any other protocol/obfs combination compatibility mode returns None while
native mode returns a type-"ssr" descriptor preserving protocol and obfs. -/
theorem parse_ssr_mode_semantics (url : String) (decoded : String) (f : SsrParts) (portI : Int)
    (hpre : pyStartsWith url "ssr://" = true)
    (hdec : b64decode_to_text ⟨url.data.drop 6⟩ = some decoded)
    (hf : ssr_fields decoded = some f)
    (hport : pyInt f.port = some portI) :
    ((f.protocol = "origin" ∧ f.obfs = "plain") →
        parse_ssr url false = .ok (some
          { name := f.name, type := "ss", server := f.server, port := portI,
            cipher := some f.method, password := some f.password })) ∧
    (¬ (f.protocol = "origin" ∧ f.obfs = "plain") →
        parse_ssr url false = .ok none ∧
        parse_ssr url true = .ok (some
          { name := f.name, type := "ssr", server := f.server, port := portI,
            cipher := some f.method, password := some f.password,
            protocol := some f.protocol, obfs := some f.obfs, udp := true,
            obfsParam := if f.obfsparam = "" then none else some f.obfsparam,
            protocolParam := if f.protoparam = "" then none else some f.protoparam })) ∧
    ((∃ dd, parse_ssr url false = .ok (some dd)) ↔ (f.protocol = "origin" ∧ f.obfs = "plain")) := by
  have hF : parse_ssr url false =
      .ok (if f.protocol ≠ "origin" ∨ f.obfs ≠ "plain" then none
           else some
             { name := f.name, type := "ss", server := f.server, port := portI,
               cipher := some f.method, password := some f.password }) := by
    simp [parse_ssr, hpre, hdec, hf, hport]
  have hT : parse_ssr url true =
      .ok (some
        { name := f.name, type := "ssr", server := f.server, port := portI,
          cipher := some f.method, password := some f.password,
          protocol := some f.protocol, obfs := some f.obfs, udp := true,
          obfsParam := if f.obfsparam = "" then none else some f.obfsparam,
          protocolParam := if f.protoparam = "" then none else some f.protoparam }) := by
    simp [parse_ssr, hpre, hdec, hf, hport]
  refine ⟨fun hc => ?_, fun hn => ⟨?_, hT⟩, ?_⟩
  · rw [hF]
    have hcc : ¬ (f.protocol ≠ "origin" ∨ f.obfs ≠ "plain") := by tauto
    rw [if_neg hcc]
  · rw [hF]
    have hcc : f.protocol ≠ "origin" ∨ f.obfs ≠ "plain" := by tauto
    rw [if_pos hcc]
  · constructor
    · rintro ⟨dd, hdd⟩
      rw [hF] at hdd
      by_contra hn
      have hcc : f.protocol ≠ "origin" ∨ f.obfs ≠ "plain" := by tauto
      rw [if_pos hcc] at hdd
      exact Option.noConfusion (Except.ok.inj hdd)
    · intro hc
      have hcc : ¬ (f.protocol ≠ "origin" ∨ f.obfs ≠ "plain") := by tauto
      exact ⟨_, by rw [hF, if_neg hcc]⟩

theorem breakAt_of_forall_ne {ch : Char} {l : List Char} (h : ∀ c ∈ l, c ≠ ch) :
    breakAt ch l = (l, none) := by
  induction l with
  | nil => rfl
  | cons x xs ih =>
    have hx : ¬ x = ch := h x (List.mem_cons_self _ _)
    simp only [breakAt, if_neg hx, ih (fun c hc => h c (List.mem_cons_of_mem _ hc))]

theorem breakAt_append_of_forall_ne {ch : Char} {l1 : List Char} (l2 : List Char)
    (h : ∀ c ∈ l1, c ≠ ch) :
    breakAt ch (l1 ++ l2) = (l1 ++ (breakAt ch l2).1, (breakAt ch l2).2) := by
  induction l1 with
  | nil => simp
  | cons x xs ih =>
    have hx : ¬ x = ch := h x (List.mem_cons_self _ _)
    simp only [List.cons_append, breakAt, if_neg hx, List.append_eq]
    rw [ih (fun c hc => h c (List.mem_cons_of_mem _ hc))]

theorem breakAt_append_of_found {ch : Char} {l1 l2 a r : List Char}
    (h : breakAt ch l1 = (a, some r)) :
    breakAt ch (l1 ++ l2) = (a, some (r ++ l2)) := by
  induction l1 generalizing a with
  | nil => exact absurd h (by simp [breakAt])
  | cons x xs ih =>
    by_cases hx : x = ch
    · simp only [breakAt, if_pos hx, Prod.mk.injEq, Option.some.injEq] at h ⊢
      exact ⟨h.1, by simp [h.2]⟩
    · simp only [breakAt, if_neg hx, Prod.mk.injEq] at h ⊢
      rcases hb : breakAt ch xs with ⟨b, o⟩
      rw [hb] at h
      obtain ⟨ha, ho⟩ := h
      rcases o with _ | r2
      · exact absurd ho (by simp)
      · obtain rfl := Option.some.inj ho
        have hih := @ih b (by rw [hb])
        simp only [List.append_eq]
        rw [hih]
        exact ⟨by rw [← ha], rfl⟩

theorem takeWhile_eq_self_of_forall {p : Char → Bool} {l : List Char}
    (h : ∀ c ∈ l, p c = true) : l.takeWhile p = l := by
  induction l with
  | nil => rfl
  | cons x xs ih =>
    simp only [List.takeWhile_cons, h x (List.mem_cons_self _ _), if_true]
    rw [ih (fun c hc => h c (List.mem_cons_of_mem _ hc))]

theorem dropWhile_eq_nil_of_forall {p : Char → Bool} {l : List Char}
    (h : ∀ c ∈ l, p c = true) : l.dropWhile p = [] := by
  induction l with
  | nil => rfl
  | cons x xs ih =>
    simp only [List.dropWhile_cons, h x (List.mem_cons_self _ _), if_true]
    exact ih (fun c hc => h c (List.mem_cons_of_mem _ hc))

theorem contains_eq_false_of_forall_ne {l : List Char} {ch : Char}
    (h : ∀ c ∈ l, c ≠ ch) : l.contains ch = false := by
  induction l with
  | nil => rfl
  | cons x xs ih =>
    rw [List.contains_cons]
    have hx : (ch == x) = false := by
      simpa using fun e => h x (List.mem_cons_self _ _) e.symm
    rw [hx, Bool.false_or]
    exact ih (fun c hc => h c (List.mem_cons_of_mem _ hc))

theorem takeWhile_append_of_forall {p : Char → Bool} {l1 : List Char} (l2 : List Char)
    (h : ∀ c ∈ l1, p c = true) :
    (l1 ++ l2).takeWhile p = l1 ++ l2.takeWhile p := by
  induction l1 with
  | nil => simp
  | cons x xs ih =>
    simp only [List.cons_append, List.takeWhile_cons, h x (List.mem_cons_self _ _), if_true]
    rw [ih (fun c hc => h c (List.mem_cons_of_mem _ hc))]

theorem dropWhile_append_of_forall {p : Char → Bool} {l1 : List Char} (l2 : List Char)
    (h : ∀ c ∈ l1, p c = true) :
    (l1 ++ l2).dropWhile p = l2.dropWhile p := by
  induction l1 with
  | nil => simp
  | cons x xs ih =>
    simp only [List.cons_append, List.dropWhile_cons, h x (List.mem_cons_self _ _), if_true]
    exact ih (fun c hc => h c (List.mem_cons_of_mem _ hc))

/-- Helper for C6: on a well-formed ss URI the port is parsed by stripping
non-digit characters from the final colon field; no digits yields None. -/
theorem parse_ss_shape (u : String) (psl : List Char)
    (hu : u.data = 's' :: 's' :: ':' :: '/' :: '/' :: 'm' :: ':' :: 'p' :: '@' :: 'h' :: ':' :: psl)
    (hne : ∀ ch ∈ (['@', ':', '#', '?', '[', ']', '/'] : List Char), ∀ c ∈ psl, c ≠ ch) :
    parse_ss u =
      .ok (match pyInt (stripNonDigits ⟨psl⟩) with
           | none => none
           | some port => some
               { name := "SS", type := "ss", server := "h", port := port,
                 cipher := some "m", password := some "p" }) := by
  have hb1 : breakAt '#' psl = (psl, none) := breakAt_of_forall_ne (hne '#' (by decide))
  have hb2 : breakAt '?' psl = (psl, none) := breakAt_of_forall_ne (hne '?' (by decide))
  have hb3 : breakAt '@' psl = (psl, none) := breakAt_of_forall_ne (hne '@' (by decide))
  have htw : List.takeWhile (fun c => decide (¬ (c = '/' ∨ c = '?' ∨ c = '#'))) psl = psl :=
    takeWhile_eq_self_of_forall (by
      intro c hc
      have e1 := hne '/' (by decide) c hc
      have e2 := hne '?' (by decide) c hc
      have e3 := hne '#' (by decide) c hc
      simp [e1, e2, e3])
  have hdw : List.dropWhile (fun c => decide (¬ (c = '/' ∨ c = '?' ∨ c = '#'))) psl = [] :=
    dropWhile_eq_nil_of_forall (by
      intro c hc
      have e1 := hne '/' (by decide) c hc
      have e2 := hne '?' (by decide) c hc
      have e3 := hne '#' (by decide) c hc
      simp [e1, e2, e3])
  have hc1 : psl.contains '[' = false := contains_eq_false_of_forall_ne (hne '[' (by decide))
  have hc2 : psl.contains ']' = false := contains_eq_false_of_forall_ne (hne ']' (by decide))
  have hrev : breakAt ':' (psl.reverse ++ [':', 'h']) = (psl.reverse, some ['h']) := by
    rw [breakAt_append_of_forall_ne [':', 'h'] (fun c hc =>
      hne ':' (by decide) c (List.mem_reverse.1 hc))]
    rw [show breakAt ':' [':', 'h'] = ([], some ['h']) from by decide]
    simp
  have hpre : pyStartsWith u "ss://" = true := by
    simp only [pyStartsWith, hu]
    rfl
  have hq : pyUrlsplitQuery u = .ok "" := by
    simp only [pyUrlsplitQuery, pySplitFirstLeft, splitSchemeRest, pyStartsWith, pyAfterFirst,
      hu]
    simp +decide only [breakAt, hb1, List.reverse_cons, List.append_assoc, List.cons_append,
      List.nil_append, List.takeWhile_cons, List.dropWhile_cons, htw, hdw, hc1, hc2,
      List.length_cons, List.length_nil, List.take_succ_cons, List.take_nil, List.take_zero, List.drop_succ_cons, List.drop_zero, beq_self_eq_true, List.contains_cons, Bool.or_false, Bool.false_or, reduceIte]
  have hquery : parse_query u = .ok [] := by
    simp only [parse_query, hq]
    rfl
  have hname : parse_name_from_fragment u = none := by
    simp only [parse_name_from_fragment, pyContains, hu]
    simp +decide only [breakAt, hb1, reduceIte]
  simp only [parse_ss, hpre, hquery, hname]
  simp +decide only [hu, breakAt, pySplitFirstLeft, pyContains, pyStartsWith, pySplitOnce,
    pyRSplitOnce, hb1, hb2, hb3, List.reverse_cons, List.append_assoc, List.cons_append,
    List.nil_append, hrev, List.reverse_reverse, List.reverse_nil,
    List.length_cons, List.length_nil, List.take_succ_cons, List.take_nil, List.take_zero, List.drop_succ_cons, List.drop_zero, beq_self_eq_true, List.contains_cons, Bool.or_false, Bool.false_or, reduceIte]
  rcases hpi : pyInt (stripNonDigits ⟨psl⟩) with _ | port <;>
    (simp +decide only [hu, breakAt, pyContains, pySplitOnce, pyRSplitOnce, hb1, hb2, hb3,
      List.reverse_cons, List.append_assoc, List.cons_append, List.nil_append, hrev,
      List.reverse_reverse, List.reverse_nil, qget, truthyOpt, List.find?_nil,
      Option.isSome_some, Option.isSome_none, hpi, reduceIte]
     try rfl)

/-- Helper for C6: on a well-formed trojan URI the port is parsed by
stripping non-digit characters; no digits at all yields None. -/
theorem parse_trojan_shape (u : String) (psl : List Char)
    (hu : u.data = 't' :: 'r' :: 'o' :: 'j' :: 'a' :: 'n' :: ':' :: '/' :: '/' :: 'p' :: '@' ::
      'h' :: ':' :: psl)
    (hne : ∀ ch ∈ (['@', ':', '#', '?', '[', ']', '/'] : List Char), ∀ c ∈ psl, c ≠ ch) :
    parse_trojan u =
      .ok (match pyInt (stripNonDigits ⟨psl⟩) with
           | none => none
           | some port => some
               { name := "Trojan", type := "trojan", server := "h", port := port,
                 password := some "p", udp := true, sni := some "h",
                 skipCertVerify := false }) := by
  have hb1 : breakAt '#' psl = (psl, none) := breakAt_of_forall_ne (hne '#' (by decide))
  have hb2 : breakAt '?' psl = (psl, none) := breakAt_of_forall_ne (hne '?' (by decide))
  have hb3 : breakAt '@' psl = (psl, none) := breakAt_of_forall_ne (hne '@' (by decide))
  have htw : List.takeWhile (fun c => decide (¬ (c = '/' ∨ c = '?' ∨ c = '#'))) psl = psl :=
    takeWhile_eq_self_of_forall (by
      intro c hc
      have e1 := hne '/' (by decide) c hc
      have e2 := hne '?' (by decide) c hc
      have e3 := hne '#' (by decide) c hc
      simp [e1, e2, e3])
  have hdw : List.dropWhile (fun c => decide (¬ (c = '/' ∨ c = '?' ∨ c = '#'))) psl = [] :=
    dropWhile_eq_nil_of_forall (by
      intro c hc
      have e1 := hne '/' (by decide) c hc
      have e2 := hne '?' (by decide) c hc
      have e3 := hne '#' (by decide) c hc
      simp [e1, e2, e3])
  have hc1 : psl.contains '[' = false := contains_eq_false_of_forall_ne (hne '[' (by decide))
  have hc2 : psl.contains ']' = false := contains_eq_false_of_forall_ne (hne ']' (by decide))
  have hrev : breakAt ':' (psl.reverse ++ [':', 'h']) = (psl.reverse, some ['h']) := by
    rw [breakAt_append_of_forall_ne [':', 'h'] (fun c hc =>
      hne ':' (by decide) c (List.mem_reverse.1 hc))]
    rw [show breakAt ':' [':', 'h'] = ([], some ['h']) from by decide]
    simp
  have hpre : pyStartsWith u "trojan://" = true := by
    simp only [pyStartsWith, hu]
    rfl
  have hq : pyUrlsplitQuery u = .ok "" := by
    simp only [pyUrlsplitQuery, pySplitFirstLeft, splitSchemeRest, pyStartsWith, pyAfterFirst,
      hu]
    simp +decide only [breakAt, hb1, List.reverse_cons, List.append_assoc, List.cons_append,
      List.nil_append, List.takeWhile_cons, List.dropWhile_cons, htw, hdw, hc1, hc2,
      List.contains_cons, List.length_cons, List.length_nil, List.take_succ_cons,
      List.take_nil, List.take_zero, List.drop_succ_cons, List.drop_zero, beq_self_eq_true,
      Bool.or_false, Bool.false_or, reduceIte]
  have hquery : parse_query u = .ok [] := by
    simp only [parse_query, hq]
    rfl
  have hname : parse_name_from_fragment u = none := by
    simp only [parse_name_from_fragment, pyContains, hu]
    simp +decide only [breakAt, hb1, reduceIte]
  simp only [parse_trojan, hpre, hquery, hname]
  rcases hpi : pyInt (stripNonDigits ⟨psl⟩) with _ | port <;>
    (simp +decide only [hu, breakAt, pyContains, pySplitFirstLeft, pySplitOnce, pyRSplitOnce,
      hb1, hb2, hb3, List.reverse_cons, List.append_assoc, List.cons_append, List.nil_append,
      hrev, List.reverse_reverse, List.reverse_nil, qget, truthyOpt, orStr, List.find?_nil,
      Option.isSome_some, Option.isSome_none, List.drop_succ_cons, List.drop_zero,
      hpi, reduceIte]
     try rfl)

/-- Helper for C6: the ssr parser converts its port strictly — a
non-integral port field yields None in both modes, with no digit
stripping. -/
theorem parse_ssr_strict_port (url : String) (allow : Bool) (decoded : String) (f : SsrParts)
    (hpre : pyStartsWith url "ssr://" = true)
    (hdec : b64decode_to_text ⟨url.data.drop 6⟩ = some decoded)
    (hf : ssr_fields decoded = some f)
    (hpi : pyInt f.port = none) :
    parse_ssr url allow = .ok none := by
  cases allow
  · simp [parse_ssr, hpre, hdec, hf, hpi]
  · simp [parse_ssr, hpre, hdec, hf, hpi]

/-- C6 (amended): only the ss and trojan parsers strip non-digit characters
from the port before integer conversion (no digits left = None); vmess and
ssr convert strictly; a zero port yields None only in vmess — ss, trojan and
ssr produce descriptors with port 0 (see the counterexample). -/
theorem numeric_port_discipline :
    (∀ (url : String) (d : Proxy), parse_vmess url = .ok (some d) → d.port ≠ 0) ∧
    (∀ ps : String,
      (∀ c ∈ ps.data, c ≠ '@' ∧ c ≠ ':' ∧ c ≠ '#' ∧ c ≠ '?' ∧ c ≠ '[' ∧ c ≠ ']' ∧ c ≠ '/') →
      parse_ss ("ss://m:p@h:" ++ ps) =
        .ok (match pyInt (stripNonDigits ps) with
             | none => none
             | some port => some
                 { name := "SS", type := "ss", server := "h", port := port,
                   cipher := some "m", password := some "p" })) ∧
    (∀ ps : String,
      (∀ c ∈ ps.data, c ≠ '@' ∧ c ≠ ':' ∧ c ≠ '#' ∧ c ≠ '?' ∧ c ≠ '[' ∧ c ≠ ']' ∧ c ≠ '/') →
      parse_trojan ("trojan://p@h:" ++ ps) =
        .ok (match pyInt (stripNonDigits ps) with
             | none => none
             | some port => some
                 { name := "Trojan", type := "trojan", server := "h", port := port,
                   password := some "p", udp := true, sni := some "h",
                   skipCertVerify := false })) ∧
    (∀ (url : String) (allow : Bool) (decoded : String) (f : SsrParts),
      pyStartsWith url "ssr://" = true →
      b64decode_to_text ⟨url.data.drop 6⟩ = some decoded →
      ssr_fields decoded = some f → pyInt f.port = none →
      parse_ssr url allow = .ok none) := by
  refine ⟨parse_vmess_rejects_zero_port, fun ps h => ?_, fun ps h => ?_,
    parse_ssr_strict_port⟩
  · exact parse_ss_shape _ ps.data rfl (by
      intro ch hch c hc
      obtain ⟨h1, h2, h3, h4, h5, h6, h7⟩ := h c hc
      fin_cases hch <;> assumption)
  · exact parse_trojan_shape _ ps.data rfl (by
      intro ch hch c hc
      obtain ⟨h1, h2, h3, h4, h5, h6, h7⟩ := h c hc
      fin_cases hch <;> assumption)

/-- Witness for C6 (amended) at concrete inputs for all four parsers. -/
theorem numeric_port_discipline_witness :
    ({ name := "V", type := "vmess", server := "h", port := 443, uuid := some "u",
       alterId := some 0, cipher := some "auto" } : Proxy).port ≠ 0 ∧
    parse_ss ("ss://m:p@h:" ++ "4x4") =
      .ok (match pyInt (stripNonDigits "4x4") with
           | none => none
           | some port => some
               { name := "SS", type := "ss", server := "h", port := port,
                 cipher := some "m", password := some "p" }) ∧
    parse_trojan ("trojan://p@h:" ++ "x") =
      .ok (match pyInt (stripNonDigits "x") with
           | none => none
           | some port => some
               { name := "Trojan", type := "trojan", server := "h", port := port,
                 password := some "p", udp := true, sni := some "h",
                 skipCertVerify := false }) ∧
    parse_ssr "ssr://aDo4MGE6b3JpZ2luOmFlczpwbGFpbjpjQQ==" false = .ok none :=
  ⟨numeric_port_discipline.1 "vmess://eyJwcyI6IlYiLCJhZGQiOiJoIiwicG9ydCI6IjQ0MyIsImlkIjoidSJ9"
      _ (by decide),
   numeric_port_discipline.2.1 "4x4" (by decide),
   numeric_port_discipline.2.2.1 "x" (by decide),
   numeric_port_discipline.2.2.2 "ssr://aDo4MGE6b3JpZ2luOmFlczpwbGFpbjpjQQ==" false
     "h:80a:origin:aes:plain:cA" ⟨"h", "80a", "origin", "aes", "plain", "p", "SSR", "", ""⟩
     (by decide) (by decide) (by decide) (by decide)⟩

/-- C9 (amended): ss and trojan name descriptors by the percent-decoded URI
fragment (defaults "SS"/"Trojan"); vmess names come from the JSON `ps` field
(default "VMess"); ssr names come from the decoded body's remarks field (via
`ssr_fields`), not from the URI fragment. -/
theorem parser_name_resolution :
    (∀ (url : String) (d : Proxy), parse_ss url = .ok (some d) →
        d.name = (parse_name_from_fragment url).getD "SS") ∧
    (∀ (url : String) (d : Proxy), parse_trojan url = .ok (some d) →
        d.name = (parse_name_from_fragment url).getD "Trojan") ∧
    (∀ (url : String) (d : Proxy) (kvs : List (String × JVal)),
        (match b64decode_to_text ⟨url.data.drop 8⟩ with
         | none => none
         | some t => jsonLoads t) = some (JVal.obj kvs) →
        parse_vmess url = .ok (some d) →
        d.name = jToStr (jOr (jGet kvs "ps") (.str "VMess"))) ∧
    (∀ (url : String) (allow : Bool) (d : Proxy), parse_ssr url allow = .ok (some d) →
        ∃ decoded f, b64decode_to_text ⟨url.data.drop 6⟩ = some decoded ∧
          ssr_fields decoded = some f ∧ d.name = f.name) :=
  ⟨parse_ss_name, parse_trojan_name, parse_vmess_name, parse_ssr_name⟩

/-- Witness for C9 (amended) at one concrete URI per scheme. -/
theorem parser_name_resolution_witness :
    (({ name := "MyNode", type := "ss", server := "h", port := 80, cipher := some "m",
        password := some "p" } : Proxy).name =
      (parse_name_from_fragment "ss://m:p@h:80#MyNode").getD "SS") ∧
    (({ name := "T1", type := "trojan", server := "h", port := 80, password := some "s",
        udp := true, sni := some "h", skipCertVerify := false } : Proxy).name =
      (parse_name_from_fragment "trojan://s@h:80#T1").getD "Trojan") ∧
    (({ name := "V", type := "vmess", server := "h", port := 443, uuid := some "u",
        alterId := some 0, cipher := some "auto" } : Proxy).name =
      jToStr (jOr (jGet [("ps", JVal.str "V"), ("add", JVal.str "h"),
        ("port", JVal.str "443"), ("id", JVal.str "u")] "ps") (.str "VMess"))) ∧
    (∃ decoded f,
      b64decode_to_text ⟨("ssr://aDo4MDpvcmlnaW46YWVzOnBsYWluOmNB" : String).data.drop 6⟩ =
        some decoded ∧
      ssr_fields decoded = some f ∧
      ({ name := "SSR", type := "ss", server := "h", port := 80, cipher := some "aes",
         password := some "p" } : Proxy).name = f.name) :=
  ⟨parser_name_resolution.1 "ss://m:p@h:80#MyNode" _ (by decide),
   parser_name_resolution.2.1 "trojan://s@h:80#T1" _ (by decide),
   parser_name_resolution.2.2.1
     "vmess://eyJwcyI6IlYiLCJhZGQiOiJoIiwicG9ydCI6IjQ0MyIsImlkIjoidSJ9" _
     [("ps", JVal.str "V"), ("add", JVal.str "h"), ("port", JVal.str "443"),
      ("id", JVal.str "u")] rfl (by decide),
   parser_name_resolution.2.2.2 "ssr://aDo4MDpvcmlnaW46YWVzOnBsYWluOmNB" false _ (by decide)⟩

/-- C9 counterexample: an SSR URI with non-empty fragment "!!!" still yields
a descriptor named "SSR" — the ssr parser never consults the fragment. -/
theorem parse_ssr_fragment_counterexample :
    parse_ssr "ssr://aDo4MDpvcmlnaW46YWVzOnBsYWluOmNB#!!!" false =
      .ok (some { name := "SSR", type := "ss", server := "h", port := 80,
                  cipher := some "aes", password := some "p" }) ∧
    parse_name_from_fragment "ssr://aDo4MDpvcmlnaW46YWVzOnBsYWluOmNB#!!!" = some "!!!" ∧
    ("SSR" : String) ≠ "!!!" := by
  refine ⟨by decide, by decide, by decide⟩

/-- Witness for C1 at a protocol=origin/obfs=plain SSR URI and at an
auth_aes128_md5 one, in both modes. -/
theorem parse_ssr_mode_semantics_witness :
    parse_ssr "ssr://aDo4MDpvcmlnaW46YWVzOnBsYWluOmNB" false = .ok (some
      { name := "SSR", type := "ss", server := "h", port := 80,
        cipher := some "aes", password := some "p" }) ∧
    parse_ssr "ssr://aDo4MDphdXRoX2FlczEyOF9tZDU6YWVzOnBsYWluOmNB" false = .ok none ∧
    parse_ssr "ssr://aDo4MDphdXRoX2FlczEyOF9tZDU6YWVzOnBsYWluOmNB" true = .ok (some
      { name := "SSR", type := "ssr", server := "h", port := 80, cipher := some "aes",
        password := some "p", protocol := some "auth_aes128_md5", obfs := some "plain",
        udp := true }) :=
  ⟨(parse_ssr_mode_semantics "ssr://aDo4MDpvcmlnaW46YWVzOnBsYWluOmNB"
      "h:80:origin:aes:plain:cA" ⟨"h", "80", "origin", "aes", "plain", "p", "SSR", "", ""⟩ 80
      (by decide) (by decide) (by decide) (by decide)).1 ⟨rfl, rfl⟩,
   ((parse_ssr_mode_semantics "ssr://aDo4MDphdXRoX2FlczEyOF9tZDU6YWVzOnBsYWluOmNB"
      "h:80:auth_aes128_md5:aes:plain:cA"
      ⟨"h", "80", "auth_aes128_md5", "aes", "plain", "p", "SSR", "", ""⟩ 80
      (by decide) (by decide) (by decide) (by decide)).2.1 (by decide)).1,
   ((parse_ssr_mode_semantics "ssr://aDo4MDphdXRoX2FlczEyOF9tZDU6YWVzOnBsYWluOmNB"
      "h:80:auth_aes128_md5:aes:plain:cA"
      ⟨"h", "80", "auth_aes128_md5", "aes", "plain", "p", "SSR", "", ""⟩ 80
      (by decide) (by decide) (by decide) (by decide)).2.1 (by decide)).2⟩

theorem b64Index_b64Chr : ∀ n, n < 64 → b64Index (b64Chr n) = some n := by decide

theorem b64Chr_ne_pad : ∀ n, n < 64 → b64Chr n ≠ '=' := by decide

theorem urlsafeTranslate_b64Chr : ∀ n, n < 64 → urlsafeTranslate (b64Chr n) = b64Chr n := by
  decide

theorem b64Encode_length_mod4 (bs : List Nat) : (b64Encode bs).length % 4 = 0 := by
  induction bs using b64Encode.induct <;> simp [b64Encode, *] <;> omega

theorem b64Encode_chars (bs : List Nat) (h : ∀ b ∈ bs, b < 256) :
    ∀ ch ∈ b64Encode bs, (∃ n, n < 64 ∧ ch = b64Chr n) ∨ ch = '=' := by
  induction bs using b64Encode.induct with
  | case1 => simp [b64Encode]
  | case2 a =>
    have ha := h a (by simp)
    intro ch hch
    simp only [b64Encode, List.mem_cons, List.not_mem_nil, or_false] at hch
    rcases hch with rfl | rfl | rfl | rfl
    · exact Or.inl ⟨a / 4, by omega, rfl⟩
    · exact Or.inl ⟨a % 4 * 16, by omega, rfl⟩
    · exact Or.inr rfl
    · exact Or.inr rfl
  | case3 a b =>
    have ha := h a (by simp)
    have hb := h b (by simp)
    intro ch hch
    simp only [b64Encode, List.mem_cons, List.not_mem_nil, or_false] at hch
    rcases hch with rfl | rfl | rfl | rfl
    · exact Or.inl ⟨a / 4, by omega, rfl⟩
    · exact Or.inl ⟨a % 4 * 16 + b / 16, by omega, rfl⟩
    · exact Or.inl ⟨b % 16 * 4, by omega, rfl⟩
    · exact Or.inr rfl
  | case4 a b c rest ih =>
    have ha := h a (by simp)
    have hb := h b (by simp)
    have hc := h c (by simp)
    intro ch hch
    simp only [b64Encode, List.mem_cons] at hch
    rcases hch with rfl | rfl | rfl | rfl | hch
    · exact Or.inl ⟨a / 4, by omega, rfl⟩
    · exact Or.inl ⟨a % 4 * 16 + b / 16, by omega, rfl⟩
    · exact Or.inl ⟨b % 16 * 4 + c / 64, by omega, rfl⟩
    · exact Or.inl ⟨c % 64, by omega, rfl⟩
    · exact ih (fun x hx => h x (by simp [hx])) ch hch

theorem urlsafeTranslate_b64Encode (bs : List Nat) (h : ∀ b ∈ bs, b < 256) :
    (b64Encode bs).map urlsafeTranslate = b64Encode bs := by
  have hch := b64Encode_chars bs h
  generalize b64Encode bs = l at hch ⊢
  revert hch
  induction l with
  | nil => intro _; rfl
  | cons x xs ih =>
    intro hch
    have hx := hch x (by simp)
    have hxx : urlsafeTranslate x = x := by
      rcases hx with ⟨n, hn, rfl⟩ | rfl
      · exact urlsafeTranslate_b64Chr n hn
      · decide
    simp only [List.map_cons, hxx]
    rw [ih (fun ch hc => hch ch (by simp [hc]))]

theorem filter_b64Encode (bs : List Nat) (h : ∀ b ∈ bs, b < 256) :
    (b64Encode bs).filter (fun c => (b64Index c).isSome || c = '=') = b64Encode bs := by
  rw [List.filter_eq_self]
  intro ch hch
  rcases b64Encode_chars bs h ch hch with ⟨n, hn, rfl⟩ | rfl
  · simp [b64Index_b64Chr n hn]
  · simp

theorem b64Quads_b64Encode (bs : List Nat) (h : ∀ b ∈ bs, b < 256) :
    b64Quads (b64Encode bs) = some bs := by
  induction bs using b64Encode.induct with
  | case1 => rfl
  | case2 a =>
    have ha := h a (by simp)
    have i1 := b64Index_b64Chr (a / 4) (by omega)
    have i2 := b64Index_b64Chr (a % 4 * 16) (by omega)
    have e1 : a / 4 * 4 + a % 4 * 16 / 16 = a := by omega
    simp [b64Encode, b64Quads, i1, i2]
    omega
  | case3 a b =>
    have ha := h a (by simp)
    have hb := h b (by simp)
    have i1 := b64Index_b64Chr (a / 4) (by omega)
    have i2 := b64Index_b64Chr (a % 4 * 16 + b / 16) (by omega)
    have i3 := b64Index_b64Chr (b % 16 * 4) (by omega)
    have n3 := b64Chr_ne_pad (b % 16 * 4) (by omega)
    have e1 : a / 4 * 4 + (a % 4 * 16 + b / 16) / 16 = a := by omega
    have e2 : (a % 4 * 16 + b / 16) % 16 * 16 + b % 16 * 4 / 4 = b := by omega
    simp [b64Encode, b64Quads, i1, i2, i3, n3]
    omega
  | case4 a b c rest ih =>
    have ha := h a (by simp)
    have hb := h b (by simp)
    have hc := h c (by simp)
    have i1 := b64Index_b64Chr (a / 4) (by omega)
    have i2 := b64Index_b64Chr (a % 4 * 16 + b / 16) (by omega)
    have i3 := b64Index_b64Chr (b % 16 * 4 + c / 64) (by omega)
    have i4 := b64Index_b64Chr (c % 64) (by omega)
    have n3 := b64Chr_ne_pad (b % 16 * 4 + c / 64) (by omega)
    have n4 := b64Chr_ne_pad (c % 64) (by omega)
    have hih := ih (fun x hx => h x (by simp [hx]))
    have e1 : a / 4 * 4 + (a % 4 * 16 + b / 16) / 16 = a := by omega
    have e2 : (a % 4 * 16 + b / 16) % 16 * 16 + (b % 16 * 4 + c / 64) / 4 = b := by omega
    have e3 : (b % 16 * 4 + c / 64) % 4 * 64 + c % 64 = c := by omega
    simp [b64Encode, b64Quads, i1, i2, i3, i4, n3, n4, hih]
    omega

theorem b64DecodeLoose_b64Encode (bs : List Nat) (h : ∀ b ∈ bs, b < 256) :
    b64DecodeLoose (b64Encode bs) = some bs := by
  unfold b64DecodeLoose
  rw [filter_b64Encode bs h, b64Quads_b64Encode bs h]

theorem utf8EncodeChar_lt (n : Nat) (hn : n < 1114112) : ∀ b ∈ utf8EncodeChar n, b < 256 := by
  unfold utf8EncodeChar
  split
  · intro b hb
    simp only [List.mem_singleton] at hb
    omega
  · split
    · intro b hb
      simp only [List.mem_cons, List.not_mem_nil, or_false] at hb
      rcases hb with rfl | rfl <;> omega
    · split
      · intro b hb
        simp only [List.mem_cons, List.not_mem_nil, or_false] at hb
        rcases hb with rfl | rfl | rfl <;> omega
      · intro b hb
        simp only [List.mem_cons, List.not_mem_nil, or_false] at hb
        rcases hb with rfl | rfl | rfl | rfl <;> omega

theorem char_toNat_valid (c : Char) :
    c.toNat < 55296 ∨ (57344 ≤ c.toNat ∧ c.toNat < 1114112) := c.valid

theorem utf8Encode_lt (s : String) : ∀ b ∈ utf8Encode s, b < 256 := by
  intro b hb
  simp only [utf8Encode, List.mem_flatten, List.mem_map] at hb
  obtain ⟨l, ⟨c, _, rfl⟩, hbl⟩ := hb
  have := char_toNat_valid c
  exact utf8EncodeChar_lt c.toNat (by omega) b hbl

theorem utf8DFA_encChar (repl : List Char) (c : Char) (rest : List Nat) :
    utf8DFA repl none (utf8EncodeChar c.toNat ++ rest) = c :: utf8DFA repl none rest := by
  have hv := char_toNat_valid c
  have e := Char.ofNat_toNat c
  generalize hvv : c.toNat = v at hv e
  unfold utf8EncodeChar
  by_cases h1 : v < 128
  · rw [if_pos h1]
    have hcl : classifyLead v = .ascii (Char.ofNat v) := by
      unfold classifyLead
      rw [if_pos h1]
    simp only [List.cons_append, List.nil_append, utf8DFA, hcl, e, List.append_eq]
  · rw [if_neg h1]
    by_cases h2 : v < 2048
    · rw [if_pos h2]
      have hcl : classifyLead (192 + v / 64) = .start (192 + v / 64 - 192) 1 128 191 := by
        unfold classifyLead
        rw [if_neg (by omega), if_pos (by constructor <;> omega)]
      simp only [List.cons_append, List.nil_append, utf8DFA, hcl]
      rw [if_pos (by constructor <;> omega)]
      have hval : (192 + v / 64 - 192) * 64 + (128 + v % 64 - 128) = v := by omega
      rw [hval, e]
      simp only [if_true, ite_true, List.append_eq, List.nil_append]
    · rw [if_neg h2]
      by_cases h3 : v < 65536
      · rw [if_pos h3]
        have hcl : classifyLead (224 + v / 4096) =
            .start (224 + v / 4096 - 224) 2
              (if 224 + v / 4096 = 224 then 160 else 128)
              (if 224 + v / 4096 = 237 then 159 else 191) := by
          unfold classifyLead
          rw [if_neg (by omega), if_neg (by omega), if_pos (by constructor <;> omega)]
        simp only [List.cons_append, List.nil_append, utf8DFA, hcl]
        rw [if_pos ?hcond]
        case hcond =>
          constructor
          · split <;> omega
          · split
            · rename_i hx
              have h13 : v / 4096 = 13 := by omega
              have h55 : v < 55296 := by omega
              omega
            · omega
        rw [if_neg (show ¬ ((2 : Nat) = 1) by omega)]
        rw [if_pos (show 128 ≤ 128 + v % 64 ∧ 128 + v % 64 ≤ 191 by constructor <;> omega)]
        have e1 : (224 + v / 4096 - 224) * 64 + (128 + v / 64 % 64 - 128) = v / 4096 * 64 +
            v / 64 % 64 := by omega
        rw [e1]
        have e2 : (v / 4096 * 64 + v / 64 % 64) * 64 + (128 + v % 64 - 128) = v := by omega
        rw [e2, e]
        simp only [if_true, ite_true, List.append_eq, List.nil_append]
      · rw [if_neg h3]
        have hv4 : v < 1114112 := by omega
        have hcl : classifyLead (240 + v / 262144) =
            .start (240 + v / 262144 - 240) 3
              (if 240 + v / 262144 = 240 then 144 else 128)
              (if 240 + v / 262144 = 244 then 143 else 191) := by
          unfold classifyLead
          rw [if_neg (by omega), if_neg (by omega), if_neg (by omega),
            if_pos (by constructor <;> omega)]
        simp only [List.cons_append, List.nil_append, utf8DFA, hcl]
        rw [if_pos ?hcond4]
        case hcond4 =>
          constructor
          · split <;> omega
          · split
            · rename_i hx
              have h4 : v / 262144 = 4 := by omega
              omega
            · omega
        rw [if_neg (show ¬ ((3 : Nat) = 1) by omega)]
        rw [if_pos (show 128 ≤ 128 + v / 64 % 64 ∧ 128 + v / 64 % 64 ≤ 191 by
          constructor <;> omega)]
        rw [if_neg (show ¬ ((3 : Nat) - 1 = 1) by omega)]
        rw [if_pos (show 128 ≤ 128 + v % 64 ∧ 128 + v % 64 ≤ 191 by constructor <;> omega)]
        have e1 : (240 + v / 262144 - 240) * 64 + (128 + v / 4096 % 64 - 128) =
            v / 262144 * 64 + v / 4096 % 64 := by omega
        rw [e1]
        have e2 : (v / 262144 * 64 + v / 4096 % 64) * 64 + (128 + v / 64 % 64 - 128) =
            v / 4096 * 64 + v / 64 % 64 := by omega
        rw [e2]
        have e3 : (v / 4096 * 64 + v / 64 % 64) * 64 + (128 + v % 64 - 128) = v := by omega
        rw [e3, e]
        simp only [if_true, ite_true, List.append_eq, List.nil_append]

theorem utf8DecodeIgnore_utf8Encode (s : String) : utf8DecodeIgnore (utf8Encode s) = s := by
  obtain ⟨cs⟩ := s
  have : utf8DFA [] none ((cs.map (fun c => utf8EncodeChar c.toNat)).flatten) = cs := by
    induction cs with
    | nil => rfl
    | cons c cs ih =>
      simp only [List.map_cons, List.flatten_cons]
      rw [utf8DFA_encChar, ih]
  simpa [utf8DecodeIgnore, utf8Encode] using congrArg String.mk this

/-- C7: for every string obtained from valid Base64-encoded UTF-8 text by
removing up to three trailing padding characters (at most two exist) and
inserting interior whitespace, the recoder returns exactly the original
text, byte for byte. -/
theorem recoder_recovers_mangled_base64 (t : String) (j : Nat) (m : String)
    (hj3 : j ≤ 3)
    (hpad : (b64Encode (utf8Encode t)).drop ((b64Encode (utf8Encode t)).length - j) =
      List.replicate j '=')
    (hm : m.data.filter (fun c => ¬ isPyWS c) =
      (b64Encode (utf8Encode t)).take ((b64Encode (utf8Encode t)).length - j)) :
    b64decode_to_text m = some t := by
  have hle := utf8Encode_lt t
  have hmod := b64Encode_length_mod4 (utf8Encode t)
  set E := b64Encode (utf8Encode t) with hE
  have hjL : j ≤ E.length := by
    rcases Nat.eq_zero_or_pos E.length with h0 | hpos
    · have h1 : List.replicate j '=' = ([] : List Char) := by
        rw [← hpad, List.length_eq_zero.1 h0]
        simp
      have h2 : j = 0 := by simpa using congrArg List.length h1
      omega
    · omega
  have hpadded : recoderPadded m = E := by
    unfold recoderPadded
    rw [hm]
    have hlt : (E.take (E.length - j)).length = E.length - j := by
      rw [List.length_take]
      omega
    show List.take (E.length - j) E ++
      List.replicate ((4 - (List.take (E.length - j) E).length % 4) % 4) '=' = E
    rw [hlt]
    have hcount : (4 - (E.length - j) % 4) % 4 = j := by omega
    rw [hcount, ← hpad, List.take_append_drop]
  simp only [b64decode_to_text, hpadded, urlsafeTranslate_b64Encode _ hle,
    b64DecodeLoose_b64Encode _ hle, utf8DecodeIgnore_utf8Encode]

/-- Witness for C7: "aG\nk" is "aGk=" minus its padding with an interior
newline; the recoder recovers "hi". -/
theorem recoder_recovers_mangled_base64_witness :
    b64decode_to_text "aG\nk" = some "hi" :=
  recoder_recovers_mangled_base64 "hi" 1 "aG\nk" (by decide) (by decide) (by decide)

end Sub2Clash
